import Mathlib

/-
Verification of the ad-clustering browser (streamlit_app.py).
The tabular core of the application is embedded shallowly: a data frame is a
list of rows, a row is an association list from column label to cell value,
and each pandas operation used by the app is translated to an executable
Lean function over that representation.
-/

namespace AdApp

open scoped List

/-- A table row: an association list from column label to cell value.
Well-formed rows bind each label at most once, matching pandas columns. -/
abbrev Row := List (String × String)

/-- Cell access, as in row[label]; absent labels give the empty string. -/
def getD : Row → String → String
  | [], _ => ""
  | p :: r, c => if p.1 == c then p.2 else getD r c

/-- Column-presence test, as in label in row.index. -/
def hasCol : Row → String → Bool
  | [], _ => false
  | p :: r, c => p.1 == c || hasCol r c

/-- Column assignment, as in df[label] = value restricted to one row: the
first existing binding is replaced in place, a fresh label is appended. -/
def setCol : Row → String → String → Row
  | [], c, v => [(c, v)]
  | p :: r, c, v => if p.1 == c then (c, v) :: r else p :: setCol r c v

/-- Path concatenation, as in os.path.join(a, b). -/
def osJoin (a b : String) : String := a ++ "/" ++ b

/-- Expected image filename for a row identifier (line 40 of the source):
the identifier followed by the hardcoded PNG extension. -/
def expectedName (adId : String) : String := adId ++ ".png"

/-- The two column assignments performed on a surviving row by
process_uploaded_files (lines 40 and 43). -/
def enrichRow (path : String) (r : Row) : Row :=
  setCol (setCol r "image_name" (expectedName (getD r "ad_id"))) "image_path"
    (osJoin path (expectedName (getD r "ad_id")))

/-- The survival condition of the join: the expected filename of the row
occurs among the uploaded filenames. -/
def imageJoinPred (names : List String) (r : Row) : Bool :=
  names.contains (expectedName (getD r "ad_id"))

/-- Lines 40 to 43 of the source: assign image_name to every row, keep the
rows whose image_name occurs among the uploaded names, then assign
image_path to the survivors. -/
def joinRows (path : String) (rows : List Row) (names : List String) : List Row :=
  ((rows.map (fun r => setCol r "image_name" (expectedName (getD r "ad_id")))).filter
      (fun r => names.contains (getD r "image_name"))).map
    (fun r => setCol r "image_path" (osJoin path (expectedName (getD r "ad_id"))))

/-- One uploaded image blob: its filename plus a fault flag modelling
whether writing it to temporary storage succeeds (lines 27 to 31). -/
structure Upload where
  name : String
  writeOk : Bool
deriving DecidableEq

/-- Typed outcome of the ingest stage. The source reports errors through a
message box and returns None; the constructors record which message. -/
inductive IngestError where
  /-- An exception while writing an uploaded file, caught by the handler of
  line 45, reported as a processing error. -/
  | storage
  /-- The CSV lacks the ad_id column (lines 35 to 37). -/
  | missingAdId
deriving DecidableEq

/-- The write loop of lines 27 to 31: filenames are collected in order; an
exception while writing one file propagates out of the loop. -/
def writeImages : List Upload → Except IngestError (List String)
  | [] => .ok []
  | u :: us =>
    if u.writeOk then (writeImages us).map (fun ns => u.name :: ns)
    else .error .storage

/-- Column-label update of a frame under assignment: a fresh label is
appended after the existing ones. -/
def addColLabel (cols : List String) (c : String) : List String :=
  if c ∈ cols then cols else cols ++ [c]

/-- Lines 15 to 47 of the source. Writes the uploads, validates the ad_id
column, and joins; any write failure reaches the handler of line 45 first,
since the loop precedes the validation. Returns the joined frame as its
column labels paired with its rows, or the error that was reported. -/
def process_uploaded_files (path : String) (uploads : List Upload)
    (csvCols : List String) (csvRows : List Row) :
    Except IngestError (List String × List Row) :=
  match writeImages uploads with
  | .error e => .error e
  | .ok names =>
    if "ad_id" ∈ csvCols then
      .ok (addColLabel (addColLabel csvCols "image_name") "image_path",
        joinRows path csvRows names)
    else
      .error .missingAdId

/-- The downstream views main can render after ingest (lines 145 to 178). -/
inductive View where
  | distribution
  | brandImages
  | preview
deriving DecidableEq

/-- Lines 141 to 166 of main: when ingest returns no dataset, main returns
at line 143 and renders nothing; otherwise the distribution table is
rendered, and the brand grid and preview follow when pagename exists. -/
def mainViews (path : String) (uploads : List Upload)
    (csvCols : List String) (csvRows : List Row) : List View :=
  match process_uploaded_files path uploads csvCols csvRows with
  | .error _ => []
  | .ok (cols, _) =>
    View.distribution ::
      (if "pagename" ∈ cols then [View.brandImages, View.preview] else [])

/-- The fixed attribute set of display_image_attributes (lines 62 to 68). -/
def attributes : List String :=
  ["pagename", "dominant_background_colour", "logo_present", "cluster", "tier"]

/-- Lines 60 to 79 of the source: collect every missing attribute; when any
is missing report one message listing them all, joined by commas; otherwise
build the (attribute, value) table in the fixed order. -/
def display_image_attributes (row : Row) : Except String (List (String × String)) :=
  match attributes.filter (fun a => !hasCol row a) with
  | [] => .ok (attributes.map (fun a => (a, getD row a)))
  | ms => .error ("Missing attributes in the selected row: " ++ String.intercalate ", " ms)

/-- Lines 87 to 91 of display_cluster_images: rows sharing the selected
cluster, excluding the selected identifier, truncated to the first six. -/
def clusterPeers (rows : List Row) (selRow : Row) (selId : String) : List Row :=
  (rows.filter (fun r =>
    getD r "cluster" == getD selRow "cluster" && getD r "ad_id" != selId)).take 6

/-- Line 169 of main: the row displayed for a chosen identifier, the
element at position zero of the rows matching on ad_id. -/
def selectedRowLookup (df : List Row) (selId : String) : Option Row :=
  (df.filter (fun r => getD r "ad_id" == selId)).head?

/-- Distinct pagename values of the dataset, the pivot index. -/
def groupVals (rows : List Row) : List String :=
  (rows.map (fun r => getD r "pagename")).dedup

/-- Distinct cluster values of the dataset, the pivot columns. -/
def clusterVals (rows : List Row) : List String :=
  (rows.map (fun r => getD r "cluster")).dedup

/-- One pivot cell: the number of rows carrying the given pagename and
cluster (aggfunc count over the ad_id column, every cell of which is a
value). Absent combinations count zero, the fill value of line 115. -/
def cellCount (rows : List Row) (g c : String) : Nat :=
  rows.countP (fun r => getD r "pagename" == g && getD r "cluster" == c)

/-- One row of the distribution table: its group value, the cluster count
cells labelled by cluster value, and the appended Total. -/
structure PivotRow where
  group : String
  cells : List (String × Nat)
  total : Nat
deriving DecidableEq

/-- The pivot row of one group: a count cell per distinct cluster value,
with Total the sum across the cells (line 119 of the source). -/
def pivotRow (rows : List Row) (g : String) : PivotRow :=
  let cells := (clusterVals rows).map (fun c => (c, cellCount rows g c))
  { group := g, cells := cells, total := (cells.map Prod.snd).sum }

/-- The pivot table of lines 109 to 119, one row per distinct group. -/
def clusterDistUnsorted (rows : List Row) : List PivotRow :=
  (groupVals rows).map (pivotRow rows)

/-- Ordering of table rows by descending Total (line 122). -/
def byTotalDesc (a b : PivotRow) : Prop := b.total ≤ a.total

instance : DecidableRel byTotalDesc := fun a b => Nat.decLe b.total a.total

instance : IsTotal PivotRow byTotalDesc := ⟨fun a b => Nat.le_total b.total a.total⟩

instance : IsTrans PivotRow byTotalDesc := ⟨fun _ _ _ hab hbc => Nat.le_trans hbc hab⟩

/-- Lines 109 to 122 of display_cluster_distribution: the pivot table
sorted by Total descending. The sort models sort_values, whose tie order
the specification leaves open. -/
def clusterDist (rows : List Row) : List PivotRow :=
  List.insertionSort byTotalDesc (clusterDistUnsorted rows)

/-- Lines 102 to 128: the distribution view renders only when both the
cluster and the pagename columns are present. -/
def display_cluster_distribution (cols : List String) (rows : List Row) :
    Option (List PivotRow) :=
  if "cluster" ∈ cols ∧ "pagename" ∈ cols then some (clusterDist rows) else none

/-- The three-row dataset of the scenario in the specification. -/
def rowsDemo : List Row :=
  [[("ad_id", "1"), ("pagename", "A"), ("cluster", "0")],
   [("ad_id", "2"), ("pagename", "A"), ("cluster", "0")],
   [("ad_id", "3"), ("pagename", "B"), ("cluster", "1")]]

/-- The first row of rowsDemo after the join against uploads 1.png, 2.png. -/
def joinedDemoRow : Row :=
  [("ad_id", "1"), ("pagename", "A"), ("cluster", "0"),
   ("image_name", "1.png"), ("image_path", "t/1.png")]

/-- The cluster peer of row 1 inside rowsDemo. -/
def demoPeerRow : Row := [("ad_id", "2"), ("pagename", "A"), ("cluster", "0")]

/-- The distribution-table row of group A over rowsDemo. -/
def demoPivotRowA : PivotRow := ⟨"A", [("0", 2), ("1", 0)], 2⟩

/-- Two rows sharing one identifier, first and last match of a lookup. -/
def dupRow1 : Row := [("ad_id", "1"), ("pagename", "A")]

/-- Second row sharing the identifier of dupRow1. -/
def dupRow2 : Row := [("ad_id", "1"), ("pagename", "B")]

/-- A row carrying only the pagename attribute. -/
def missingAttrRow : Row := [("pagename", "A")]

/-- Reading back the label just assigned gives the assigned value. -/
theorem getD_setCol_self (r : Row) (c v : String) : getD (setCol r c v) c = v := by
  induction r with
  | nil => simp [setCol, getD]
  | cons p r ih =>
    by_cases h : p.1 = c
    · simp [setCol, getD, h]
    · simp [setCol, getD, h, ih]

/-- Assignment of one label leaves every other label unchanged. -/
theorem getD_setCol_ne (r : Row) (c cx v : String) (h : cx ≠ c) :
    getD (setCol r c v) cx = getD r cx := by
  have hcx : ¬(c = cx) := fun hcc => h hcc.symm
  induction r with
  | nil => simp [setCol, getD, hcx]
  | cons p r ih =>
    by_cases hp : p.1 = c
    · simp [setCol, getD, hp, hcx]
    · by_cases hx : p.1 = cx
      · simp [setCol, getD, hp, hx, h]
      · simp [setCol, getD, hp, hx, ih]

/-- Presence of a label in a concatenation of rows. -/
theorem hasCol_append (r s : Row) (c : String) :
    hasCol (r ++ s) c = (hasCol r c || hasCol s c) := by
  induction r with
  | nil => simp [hasCol]
  | cons p r ih => simp [hasCol, ih, Bool.or_assoc]

/-- Assigning a label absent from the row appends the binding at the end. -/
theorem setCol_of_not_has (r : Row) (c v : String) (h : hasCol r c = false) :
    setCol r c v = r ++ [(c, v)] := by
  induction r with
  | nil => simp [setCol]
  | cons p r ih =>
    simp only [hasCol, Bool.or_eq_false_iff] at h
    simp [setCol, h.1, ih h.2]

/-- The join in code order equals a plain filter of the CSV rows by the
survival condition followed by the enrichment of each survivor. -/
theorem joinRows_eq (path : String) (rows : List Row) (names : List String) :
    joinRows path rows names = (rows.filter (imageJoinPred names)).map (enrichRow path) := by
  unfold joinRows
  rw [List.filter_map, List.map_map]
  have h1 : ((fun r : Row => names.contains (getD r "image_name")) ∘
      fun r => setCol r "image_name" (expectedName (getD r "ad_id"))) = imageJoinPred names := by
    funext r
    simp [Function.comp, getD_setCol_self, imageJoinPred]
  have h2 : ((fun r : Row => setCol r "image_path" (osJoin path (expectedName (getD r "ad_id")))) ∘
      fun r => setCol r "image_name" (expectedName (getD r "ad_id"))) = enrichRow path := by
    funext r
    simp only [Function.comp]
    rw [getD_setCol_ne _ _ _ _ (by decide)]
    rfl
  rw [h1, h2]

/-- A sum over pointwise-added mapped values splits into two sums. -/
theorem sum_map_add {α : Type} (f g : α → Nat) (l : List α) :
    (l.map (fun a => f a + g a)).sum = (l.map f).sum + (l.map g).sum := by
  induction l with
  | nil => simp
  | cons a l ih => simp [ih]; omega

/-- Summing the indicator of one value over a duplicate-free list that
contains the value gives one. -/
theorem sum_map_ite_eq (cs : List String) (x : String) (h1 : cs.Nodup) (h2 : x ∈ cs) :
    (cs.map (fun c => if x = c then 1 else 0)).sum = 1 := by
  induction cs with
  | nil => cases h2
  | cons c cs ih =>
    rcases List.mem_cons.mp h2 with rfl | hx
    · have hout : x ∉ cs := (List.nodup_cons.mp h1).1
      have hz : (cs.map (fun c => if x = c then 1 else 0)).sum = 0 := by
        apply List.sum_eq_zero
        intro y hy
        rcases List.mem_map.mp hy with ⟨c2, hc2, rfl⟩
        have : x ≠ c2 := fun hxc => hout (hxc ▸ hc2)
        simp [this]
      simp [hz]
    · have hxc : x ≠ c := by
        rintro rfl
        exact (List.nodup_cons.mp h1).1 hx
      simp [hxc, ih (List.nodup_cons.mp h1).2 hx]

/-- Fiberwise counting: summing, over a duplicate-free list of keys that
covers every element, the count of elements satisfying a predicate and
carrying each key, gives the count of elements satisfying the predicate. -/
theorem fiber_sum {α : Type} (key : α → String) (p : α → Bool) (cs : List String)
    (h1 : cs.Nodup) (rs : List α) (h2 : ∀ r ∈ rs, key r ∈ cs) :
    (cs.map (fun c => rs.countP (fun r => p r && (key r == c)))).sum = rs.countP p := by
  induction rs with
  | nil => simp
  | cons r rs ih =>
    have hmem : key r ∈ cs := h2 r (List.mem_cons_self r rs)
    have ih2 := ih (fun rx hrx => h2 rx (List.mem_cons_of_mem _ hrx))
    simp only [List.countP_cons]
    rw [sum_map_add]
    rw [ih2]
    have hind : (cs.map (fun c => if (p r && (key r == c)) = true then 1 else 0)).sum
        = if p r = true then 1 else 0 := by
      cases hp : p r
      · simp
      · simp only [Bool.true_and, beq_iff_eq]
        rw [sum_map_ite_eq cs (key r) h1 hmem]
        simp
    rw [hind]

/-- The Total of one pivot row equals the number of dataset rows carrying
its group value. -/
theorem cells_sum_eq (rows : List Row) (g : String) :
    ((pivotRow rows g).cells.map Prod.snd).sum
      = rows.countP (fun r => getD r "pagename" == g) := by
  show (((clusterVals rows).map (fun c => (c, cellCount rows g c))).map Prod.snd).sum = _
  rw [List.map_map]
  have hcov : ∀ r ∈ rows, getD r "cluster" ∈ clusterVals rows := fun r hr =>
    List.mem_dedup.mpr (List.mem_map_of_mem _ hr)
  have := fiber_sum (fun r => getD r "cluster") (fun r => getD r "pagename" == g)
    (clusterVals rows) (List.nodup_dedup _) rows hcov
  rw [← this]
  rfl

/-- The Totals of the unsorted pivot table sum to the dataset size. -/
theorem totals_sum (rows : List Row) :
    ((clusterDistUnsorted rows).map PivotRow.total).sum = rows.length := by
  unfold clusterDistUnsorted
  rw [List.map_map]
  have h1 : ((groupVals rows).map (PivotRow.total ∘ pivotRow rows)).sum
      = ((groupVals rows).map (fun g => rows.countP (fun r => getD r "pagename" == g))).sum := by
    apply congrArg
    apply List.map_congr_left
    intro g _
    rw [← cells_sum_eq]
    rfl
  rw [h1]
  have hcov : ∀ r ∈ rows, getD r "pagename" ∈ groupVals rows := fun r hr =>
    List.mem_dedup.mpr (List.mem_map_of_mem _ hr)
  have h2 := fiber_sum (fun r => getD r "pagename") (fun _ => true)
    (groupVals rows) (List.nodup_dedup _) rows hcov
  simp only [Bool.true_and] at h2
  rw [h2]
  simp

/-- The group labels of the unsorted pivot table are the distinct group
values of the dataset. -/
theorem unsorted_groups (rows : List Row) :
    (clusterDistUnsorted rows).map PivotRow.group = groupVals rows := by
  unfold clusterDistUnsorted
  rw [List.map_map]
  have : (PivotRow.group ∘ pivotRow rows) = id := funext fun g => rfl
  rw [this, List.map_id]

/-- A write loop over uploads with a failing file raises out of the loop. -/
theorem writeImages_error (us : List Upload) (h : ∃ u ∈ us, u.writeOk = false) :
    writeImages us = .error .storage := by
  induction us with
  | nil =>
    rcases h with ⟨u, hu, _⟩
    cases hu
  | cons u us ih =>
    rcases h with ⟨ux, hux, hw⟩
    rcases List.mem_cons.mp hux with rfl | hmem
    · simp [writeImages, hw]
    · cases hu : u.writeOk
      · simp [writeImages, hu]
      · simp [writeImages, hu, ih ⟨ux, hmem, hw⟩, Except.map]

/-- A write loop over uploads that all succeed returns a name list. -/
theorem writeImages_ok (us : List Upload) (h : ∀ u ∈ us, u.writeOk = true) :
    ∃ ns, writeImages us = .ok ns := by
  induction us with
  | nil => exact ⟨[], rfl⟩
  | cons u us ih =>
    rcases ih (fun ux hux => h ux (List.mem_cons_of_mem _ hux)) with ⟨ns, hns⟩
    exact ⟨u.name :: ns, by simp [writeImages, h u (List.mem_cons_self u us), hns, Except.map]⟩

/-- Claim C1: the joined dataset contains exactly the CSV rows whose
expected filename occurs among the uploaded names, in order, each enriched
with the two image columns; and every surviving row carries an image path
ending in the expected filename built from its identifier. -/
theorem claim_C1 (path : String) (rows : List Row) (names : List String) :
    joinRows path rows names = (rows.filter (imageJoinPred names)).map (enrichRow path)
    ∧ ∀ r ∈ joinRows path rows names,
        ∃ pre, getD r "image_path" = pre ++ expectedName (getD r "ad_id") := by
  refine ⟨joinRows_eq path rows names, ?_⟩
  intro r hr
  rw [joinRows_eq] at hr
  rcases List.mem_map.mp hr with ⟨r0, _, rfl⟩
  refine ⟨path ++ "/", ?_⟩
  simp only [enrichRow]
  rw [getD_setCol_self]
  rw [getD_setCol_ne _ _ _ _ (by decide), getD_setCol_ne _ _ _ _ (by decide)]
  rfl

/-- Claim C1 witness: the first scenario row survives the join of rowsDemo
against the uploads 1.png and 2.png with a path ending in 1.png. -/
theorem claim_C1_witness :
    ∃ pre, getD joinedDemoRow "image_path" = pre ++ expectedName (getD joinedDemoRow "ad_id") :=
  (claim_C1 "t" rowsDemo ["1.png", "2.png"]).2 joinedDemoRow (by decide)

/-- Claim C2: in the distribution table, the count cells of each group row
sum to that row's Total, and the Totals sum to the dataset row count. -/
theorem claim_C2 (rows : List Row) :
    (∀ tr ∈ clusterDist rows, (tr.cells.map Prod.snd).sum = tr.total)
    ∧ ((clusterDist rows).map PivotRow.total).sum = rows.length := by
  constructor
  · intro tr htr
    have hmem : tr ∈ clusterDistUnsorted rows :=
      (List.perm_insertionSort byTotalDesc _).mem_iff.mp htr
    rcases List.mem_map.mp hmem with ⟨g, _, rfl⟩
    rfl
  · have hp : (clusterDist rows).map PivotRow.total ~ (clusterDistUnsorted rows).map PivotRow.total :=
      (List.perm_insertionSort byTotalDesc _).map PivotRow.total
    rw [hp.sum_eq, totals_sum]

/-- Claim C2 witness: the group A row of the scenario table sums to its
Total, and the Totals of the scenario table sum to three. -/
theorem claim_C2_witness :
    (demoPivotRowA.cells.map Prod.snd).sum = demoPivotRowA.total :=
  (claim_C2 rowsDemo).1 demoPivotRowA (by decide)

/-- Claim C3: the cluster-peer lookup returns at most six rows, each
sharing the selected cluster and none carrying the selected identifier;
the result is a subsequence of the dataset, namely the first matches of
the filtered dataset in natural row order. -/
theorem claim_C3 (rows : List Row) (selRow : Row) (selId : String) :
    (clusterPeers rows selRow selId).length ≤ 6
    ∧ (∀ r ∈ clusterPeers rows selRow selId,
        getD r "cluster" = getD selRow "cluster" ∧ getD r "ad_id" ≠ selId)
    ∧ clusterPeers rows selRow selId <+ rows
    ∧ ∃ rest, clusterPeers rows selRow selId ++ rest
        = rows.filter (fun r =>
            getD r "cluster" == getD selRow "cluster" && getD r "ad_id" != selId) := by
  unfold clusterPeers
  refine ⟨List.length_take_le _ _, ?_,
    (List.take_sublist _ _).trans (List.filter_sublist _), _, List.take_append_drop _ _⟩
  intro r hr
  have hmem := List.mem_filter.mp (List.mem_of_mem_take hr)
  have hb := hmem.2
  simp only [Bool.and_eq_true, beq_iff_eq, bne_iff_ne] at hb
  exact hb

/-- Claim C3 witness: for the scenario dataset and the selected row of ad 1,
the single returned peer is ad 2, sharing cluster 0. -/
theorem claim_C3_witness :
    getD demoPeerRow "cluster" = getD [("cluster", "0")] "cluster"
    ∧ getD demoPeerRow "ad_id" ≠ "1" :=
  (claim_C3 rowsDemo [("cluster", "0")] "1").2.1 demoPeerRow (by decide)

/-- Claim C4 counterexample: with a failing write among the uploads, the
whole ingest batch is aborted with the storage error, although a later
upload and its CSV row are intact; no partial dataset is produced and main
renders nothing, contradicting the per-file skip the claim states. -/
theorem claim_C4_counterexample :
    process_uploaded_files "t" [⟨"1.png", false⟩, ⟨"2.png", true⟩] ["ad_id"]
        [[("ad_id", "1")], [("ad_id", "2")]] = .error .storage
    ∧ mainViews "t" [⟨"1.png", false⟩, ⟨"2.png", true⟩] ["ad_id"]
        [[("ad_id", "1")], [("ad_id", "2")]] = [] := by
  constructor <;> rfl

/-- Claim C4 amended: an I/O failure while writing any single uploaded
image aborts the whole ingest batch; the exception reaches the handler of
line 45, the batch-level error is reported, and no dataset is produced. -/
theorem claim_C4 (path : String) (uploads : List Upload)
    (csvCols : List String) (csvRows : List Row)
    (h : ∃ u ∈ uploads, u.writeOk = false) :
    process_uploaded_files path uploads csvCols csvRows = .error .storage := by
  unfold process_uploaded_files
  rw [writeImages_error uploads h]

/-- Claim C4 witness: one failing upload aborts a concrete ingest. -/
theorem claim_C4_witness :
    process_uploaded_files "t" [⟨"a.png", false⟩] ["ad_id"] [] = .error .storage :=
  claim_C4 "t" [⟨"a.png", false⟩] ["ad_id"] [] ⟨⟨"a.png", false⟩, by decide, rfl⟩

/-- Claim C5: when the CSV lacks the ad_id column, ingest reports the
missing-column error and returns no dataset, and main renders no
downstream view at all. -/
theorem claim_C5 (path : String) (uploads : List Upload)
    (csvCols : List String) (csvRows : List Row)
    (hok : ∀ u ∈ uploads, u.writeOk = true) (hmiss : "ad_id" ∉ csvCols) :
    process_uploaded_files path uploads csvCols csvRows = .error .missingAdId
    ∧ mainViews path uploads csvCols csvRows = [] := by
  obtain ⟨ns, hns⟩ := writeImages_ok uploads hok
  have hp : process_uploaded_files path uploads csvCols csvRows = .error .missingAdId := by
    unfold process_uploaded_files
    rw [hns]
    simp [hmiss]
  refine ⟨hp, ?_⟩
  unfold mainViews
  rw [hp]

/-- Claim C5 witness: a CSV with only a foo column yields the
missing-column error and an empty view list. -/
theorem claim_C5_witness :
    process_uploaded_files "t" [] ["foo"] [] = .error .missingAdId
    ∧ mainViews "t" [] ["foo"] [] = [] :=
  claim_C5 "t" [] ["foo"] [] (fun u hu => absurd hu (List.not_mem_nil u)) (by decide)

/-- Claim C6: the distribution table is sorted by Total descending, has
exactly one row per distinct group value of the dataset, and each row has
one count cell per distinct cluster value of the dataset, the Total being
a separate appended field. -/
theorem claim_C6 (rows : List Row) :
    List.Sorted byTotalDesc (clusterDist rows)
    ∧ ((clusterDist rows).map PivotRow.group).Nodup
    ∧ (∀ g, g ∈ (clusterDist rows).map PivotRow.group
        ↔ g ∈ rows.map (fun r => getD r "pagename"))
    ∧ (∀ tr ∈ clusterDist rows, tr.cells.map Prod.fst = clusterVals rows)
    ∧ (clusterVals rows).Nodup
    ∧ ∀ c, c ∈ clusterVals rows ↔ c ∈ rows.map (fun r => getD r "cluster") := by
  have hperm : clusterDist rows ~ clusterDistUnsorted rows :=
    List.perm_insertionSort byTotalDesc _
  refine ⟨List.sorted_insertionSort byTotalDesc _, ?_, ?_, ?_,
    List.nodup_dedup _, fun c => List.mem_dedup⟩
  · exact ((hperm.map PivotRow.group).nodup_iff).mpr
      (unsorted_groups rows ▸ List.nodup_dedup _)
  · intro g
    rw [(hperm.map PivotRow.group).mem_iff, unsorted_groups rows]
    exact List.mem_dedup
  · intro tr htr
    rcases List.mem_map.mp (hperm.mem_iff.mp htr) with ⟨g, _, rfl⟩
    show ((clusterVals rows).map (fun c => (c, cellCount rows g c))).map Prod.fst = _
    rw [List.map_map]
    exact List.map_id _

/-- Claim C6 witness: the group A row of the scenario table carries one
cell per distinct cluster value of the scenario dataset. -/
theorem claim_C6_witness :
    demoPivotRowA.cells.map Prod.fst = clusterVals rowsDemo :=
  (claim_C6 rowsDemo).2.2.2.1 demoPivotRowA (by decide)

/-- Claim C7 counterexample: with two rows sharing identifier 1, the
lookup of line 169 resolves to the first matching row, not the last. -/
theorem claim_C7_counterexample :
    selectedRowLookup [dupRow1, dupRow2] "1" = some dupRow1
    ∧ selectedRowLookup [dupRow1, dupRow2] "1" ≠ some dupRow2 := by
  constructor
  · rfl
  · decide

/-- Claim C7 amended: with duplicate identifiers, the selected-row lookup
resolves to the first matching row of the dataset: first-match-wins. -/
theorem claim_C7 (pre post : List Row) (r : Row) (selId : String)
    (hpre : ∀ rx ∈ pre, getD rx "ad_id" ≠ selId) (hr : getD r "ad_id" = selId) :
    selectedRowLookup (pre ++ r :: post) selId = some r := by
  unfold selectedRowLookup
  rw [List.filter_append]
  have h1 : pre.filter (fun rx => getD rx "ad_id" == selId) = [] := by
    rw [List.filter_eq_nil_iff]
    intro rx hrx
    simp [hpre rx hrx]
  rw [h1]
  simp [List.filter_cons, hr]

/-- Claim C7 witness: the lookup returns the first of two duplicate rows. -/
theorem claim_C7_witness :
    selectedRowLookup ([] ++ dupRow1 :: [dupRow2]) "1" = some dupRow1 :=
  claim_C7 [] [dupRow2] dupRow1 "1" (fun rx hrx => absurd hrx (List.not_mem_nil rx)) rfl

/-- Claim C8: a group and a cluster value that both occur in the dataset
but never together still produce a cell in the distribution table, filled
with the number zero rather than left absent. -/
theorem claim_C8 (rows : List Row) (g c : String)
    (hg : g ∈ rows.map (fun r => getD r "pagename"))
    (hc : c ∈ rows.map (fun r => getD r "cluster"))
    (h0 : ∀ r ∈ rows, ¬(getD r "pagename" = g ∧ getD r "cluster" = c)) :
    ∃ tr ∈ clusterDist rows, tr.group = g ∧ (c, 0) ∈ tr.cells := by
  refine ⟨pivotRow rows g, ?_, rfl, ?_⟩
  · exact (List.perm_insertionSort byTotalDesc _).mem_iff.mpr
      (List.mem_map_of_mem _ (List.mem_dedup.mpr hg))
  · have hcnt : cellCount rows g c = 0 := by
      unfold cellCount
      rw [List.countP_eq_zero]
      intro r hr
      simp only [Bool.and_eq_true, beq_iff_eq, not_and]
      exact fun h1 h2 => h0 r hr ⟨h1, h2⟩
    have hmem : (c, cellCount rows g c) ∈ (pivotRow rows g).cells :=
      List.mem_map_of_mem _ (List.mem_dedup.mpr hc)
    rwa [hcnt] at hmem

/-- Claim C8 witness: group B and cluster 0 both occur in the scenario
dataset but never together, and the table carries their cell as zero. -/
theorem claim_C8_witness :
    ∃ tr ∈ clusterDist rowsDemo, tr.group = "B" ∧ ("0", 0) ∈ tr.cells :=
  claim_C8 rowsDemo "B" "0" (by decide) (by decide) (by decide)

/-- Claim C9: the attribute lookup checks the whole fixed attribute set;
with every attribute present it returns the pairs in the fixed order, and
with any attribute absent it reports one error whose list holds exactly
the missing attribute names, all at once. -/
theorem claim_C9 (row : Row) :
    ((∀ a ∈ attributes, hasCol row a = true) →
      display_image_attributes row = .ok (attributes.map (fun a => (a, getD row a))))
    ∧ ((∃ a ∈ attributes, hasCol row a = false) →
      ∃ ms, ms ≠ []
        ∧ (∀ a, a ∈ ms ↔ (a ∈ attributes ∧ hasCol row a = false))
        ∧ display_image_attributes row
            = .error ("Missing attributes in the selected row: " ++ String.intercalate ", " ms)) := by
  constructor
  · intro hall
    have hfil : attributes.filter (fun a => !hasCol row a) = [] := by
      rw [List.filter_eq_nil_iff]
      intro a ha
      simp [hall a ha]
    unfold display_image_attributes
    rw [hfil]
  · rintro ⟨a, ha, hmiss⟩
    have hain : a ∈ attributes.filter (fun x => !hasCol row x) :=
      List.mem_filter.mpr ⟨ha, by simp [hmiss]⟩
    refine ⟨attributes.filter (fun x => !hasCol row x), List.ne_nil_of_mem hain, ?_, ?_⟩
    · intro x
      rw [List.mem_filter]
      simp
    · unfold display_image_attributes
      cases hl : attributes.filter (fun x => !hasCol row x) with
      | nil => rw [hl] at hain; cases hain
      | cons m ms2 => rfl

/-- Claim C9 witness: a row carrying only pagename yields one error whose
list holds exactly the four missing attribute names. -/
theorem claim_C9_witness :
    ∃ ms, ms ≠ []
      ∧ (∀ a, a ∈ ms ↔ (a ∈ attributes ∧ hasCol missingAttrRow a = false))
      ∧ display_image_attributes missingAttrRow
          = .error ("Missing attributes in the selected row: " ++ String.intercalate ", " ms) :=
  (claim_C9 missingAttrRow).2 ⟨"cluster", by decide, by decide⟩

/-- Claim C10 counterexample: a CSV that already carries an image_name
column has its value overwritten by the join, so the original column
values are not all preserved. -/
theorem claim_C10_counterexample :
    getD [("ad_id", "1"), ("image_name", "orig")] "image_name" = "orig"
    ∧ (joinRows "t" [[("ad_id", "1"), ("image_name", "orig")]] ["1.png"]).map
        (fun r => getD r "image_name") = ["1.png"]
    ∧ ("orig" : String) ≠ "1.png" := by
  refine ⟨rfl, rfl, ?_⟩
  decide

/-- Claim C10 amended: provided the CSV carries neither an image_name nor
an image_path column, the join keeps the surviving rows in their original
relative order, leaves every original column binding unchanged, and
appends exactly the image_name and image_path columns. -/
theorem claim_C10 (path : String) (rows : List Row) (names : List String)
    (h : ∀ r ∈ rows, hasCol r "image_name" = false ∧ hasCol r "image_path" = false) :
    joinRows path rows names
      = (rows.filter (imageJoinPred names)).map
          (fun r => r ++ [("image_name", expectedName (getD r "ad_id")),
            ("image_path", osJoin path (expectedName (getD r "ad_id")))]) := by
  rw [joinRows_eq]
  apply List.map_congr_left
  intro r hr
  obtain ⟨h1, h2⟩ := h r (List.mem_of_mem_filter hr)
  show setCol (setCol r "image_name" _) "image_path" _ = _
  rw [setCol_of_not_has _ _ _ h1]
  rw [setCol_of_not_has]
  · rw [List.append_assoc]
    rfl
  · rw [hasCol_append, h2]
    rfl

/-- Claim C10 witness: over the scenario dataset, which lacks the two
reserved columns, the join appends exactly the two image columns to each
surviving row. -/
theorem claim_C10_witness :
    joinRows "t" rowsDemo ["1.png", "2.png"]
      = (rowsDemo.filter (imageJoinPred ["1.png", "2.png"])).map
          (fun r => r ++ [("image_name", expectedName (getD r "ad_id")),
            ("image_path", osJoin "t" (expectedName (getD r "ad_id")))]) :=
  claim_C10 "t" rowsDemo ["1.png", "2.png"] (by decide)

end AdApp
